import Mathlib

/-!
Verification of the native-function call bridge and engine pump of the
browser host (`src/main.rs`).

The host registers five handlers (`toUppercase`, `addInt`, `parseInt`,
`sleep`, `emit`) on a `FuncRegistry` and, on Linux only, spawns a
producer/consumer pair that pumps `wef::do_message_work` at a timer
cadence through an unbounded flume channel.  The registry, codec and
dispatcher internals live in the `wef` crate and are modelled here from
the specification; the handler bodies, the registration list and the
pump loop are translated from `src/main.rs`.
-/

namespace Wef

/-- Modelled from the spec: the script-neutral, JSON-like value
representation shared with the script boundary (§4.1 Value Codec). -/
inductive Value where
  | vInt : Int → Value
  | vStr : String → Value
  | vUnit : Value
deriving DecidableEq

/-- Modelled from the spec: decoded host-native argument values — the
native side of the codec (§4.1): signed 32-bit integers, unsigned 64-bit
integers and strings, as used by the registered handlers. -/
inductive Native where
  | nInt : Int → Native
  | nU64 : Nat → Native
  | nStr : String → Native
deriving DecidableEq

/-- Modelled from the spec: the expected native shape of one handler
argument (§4.1 `expected_shape`). -/
inductive Ty where
  | tInt : Ty
  | tU64 : Ty
  | tStr : Ty
deriving DecidableEq

/-- Whether an encoded value matches the expected native shape: the type
must agree and an integer must fit the target width. -/
def valueMatches : Ty → Value → Bool
  | .tInt, .vInt n => decide (-(2 ^ 31) ≤ n) && decide (n < 2 ^ 31)
  | .tU64, .vInt n => decide (0 ≤ n) && decide (n < 2 ^ 64)
  | .tStr, .vStr _ => true
  | _, _ => false

/-- Modelled from the spec: `decode(script_value, expected_shape)`
(§4.1).  A shape mismatch yields a `DecodeError` description. -/
def decode1 : Ty → Value → Except String Native
  | .tInt, .vInt n =>
    if -(2 ^ 31) ≤ n ∧ n < 2 ^ 31 then .ok (.nInt n)
    else .error "expected i32, value out of range"
  | .tInt, _ => .error "expected i32"
  | .tU64, .vInt n =>
    if 0 ≤ n ∧ n < 2 ^ 64 then .ok (.nU64 n.toNat)
    else .error "expected u64, value out of range"
  | .tU64, _ => .error "expected u64"
  | .tStr, .vStr s => .ok (.nStr s)
  | .tStr, _ => .error "expected string"

/-- Modelled from the spec: decoding the full argument list against a
handler signature; fails on a count mismatch or on the first value whose
shape mismatches (§4.3 "argument count mismatch, type mismatch"). -/
def decodeArgs : List Ty → List Value → Except String (List Native)
  | [], [] => .ok []
  | [], _ :: _ => .error "wrong number of arguments"
  | _ :: _, [] => .error "wrong number of arguments"
  | t :: ts, v :: vs =>
    match decode1 t v with
    | .error e => .error e
    | .ok n =>
      match decodeArgs ts vs with
      | .error e => .error e
      | .ok ns => .ok (n :: ns)

/-- Whether an argument list matches a signature: same length and every
value matches its expected shape. -/
def argsMatchB : List Ty → List Value → Bool
  | [], [] => true
  | t :: ts, v :: vs => valueMatches t v && argsMatchB ts vs
  | _, _ => false

/-- Payload of the `emit` handler in `src/main.rs` (the serialized
`Message { event, data }` struct, lines 117-126). -/
structure EventPayload where
  event : String
  data : String
deriving DecidableEq

/-- One event pushed into a script context by `Frame::emit`: the target
frame and the payload.  It carries no call identifier. -/
structure Emission where
  target : Nat
  payload : EventPayload
deriving DecidableEq

/-- Modelled from the spec: one registration in the Function Registry
(§4.2, §9): the signature-specific decode glue is represented by the
signature, and the native function takes the calling frame and the
decoded arguments and returns a native result or a native error together
with the events it emitted. -/
structure Reg where
  sig : List Ty
  isAsync : Bool
  native : Nat → List Native → Except String Value × List Emission

/-- Two's-complement wrap-around of an unbounded integer into the i32
range, the release-profile semantics of Rust `i32` addition. -/
def wrapI32 (n : Int) : Int := (n + 2 ^ 31) % 2 ^ 32 - 2 ^ 31

/-- Numeric value of a decimal digit character. -/
def digitVal (c : Char) : Int := Int.ofNat (c.toNat - 48)

/-- One step of the digit accumulator: multiply by the radix and move
away from zero by the digit's value (negative accumulation for a
`-`-signed number, as in std `from_str_radix`). -/
def stepAcc (neg : Bool) (acc : Int) (c : Char) : Int :=
  if neg then acc * 10 - digitVal c else acc * 10 + digitVal c

/-- Digit-accumulation loop of Rust `str::parse::<i32>` (std
`from_str_radix`, radix 10), as invoked by the `parseInt` handler: each
character must be a decimal digit, and the checked i32 arithmetic
reports overflow as soon as the accumulator leaves the i32 range. -/
def parseDigits (neg : Bool) : List Char → Int → Except String Int
  | [], acc => .ok acc
  | c :: rest, acc =>
    if c.isDigit then
      if stepAcc neg acc c < -(2 ^ 31) then
        .error "number too small to fit in target type"
      else if 2 ^ 31 ≤ stepAcc neg acc c then
        .error "number too large to fit in target type"
      else parseDigits neg rest (stepAcc neg acc c)
    else .error "invalid digit found in string"

/-- Rust `str::parse::<i32>` (std semantics), as invoked by the
`parseInt` handler in `src/main.rs` line 111: an optional single sign
followed by one or more decimal digits, result within the i32 range. -/
def parseI32 (s : String) : Except String Int :=
  match s.data with
  | [] => .error "cannot parse integer from empty string"
  | c :: rest =>
    if c = '+' then
      if rest.isEmpty then .error "invalid digit found in string"
      else parseDigits false rest 0
    else if c = '-' then
      if rest.isEmpty then .error "invalid digit found in string"
      else parseDigits true rest 0
    else parseDigits false (c :: rest) 0

/-- The `toUppercase` handler of `src/main.rs` line 109:
`|value: String| value.to_uppercase()`. -/
def toUppercaseReg : Reg where
  sig := [.tStr]
  isAsync := false
  native := fun _ args =>
    match args with
    | [.nStr s] => (.ok (.vStr s.toUpper), [])
    | _ => (.error "argument shape mismatch", [])

/-- The `addInt` handler of `src/main.rs` line 110:
`|a: i32, b: i32| a + b`, with i32 (wrap-around) addition. -/
def addIntReg : Reg where
  sig := [.tInt, .tInt]
  isAsync := false
  native := fun _ args =>
    match args with
    | [.nInt a, .nInt b] => (.ok (.vInt (wrapI32 (a + b))), [])
    | _ => (.error "argument shape mismatch", [])

/-- The `parseInt` handler of `src/main.rs` line 111:
`|value: String| value.parse::<i32>()`; the `Err` of the returned
`Result` becomes the handler's error text. -/
def parseIntReg : Reg where
  sig := [.tStr]
  isAsync := false
  native := fun _ args =>
    match args with
    | [.nStr s] =>
      (match parseI32 s with
       | .ok n => .ok (.vInt n)
       | .error e => .error e, [])
    | _ => (.error "argument shape mismatch", [])

/-- The `sleep` handler of `src/main.rs` lines 112-115: an asynchronous
handler that resolves to the string "ok" (the timer wait itself is
scheduling, not value, behavior). -/
def sleepReg : Reg where
  sig := [.tU64]
  isAsync := true
  native := fun _ args =>
    match args with
    | [.nU64 _] => (.ok (.vStr "ok"), [])
    | _ => (.error "argument shape mismatch", [])

/-- The `emit` handler of `src/main.rs` lines 116-127: it takes the
calling frame (injected by the bridge, not decoded from script
arguments) and emits one `Message { event: "custom", data: "ok" }` into
that frame, returning unit. -/
def emitReg : Reg where
  sig := []
  isAsync := false
  native := fun frame args =>
    match args with
    | [] => (.ok .vUnit, [⟨frame, ⟨"custom", "ok"⟩⟩])
    | _ => (.error "argument shape mismatch", [])

/-- The registration list built in `Main::new` (`src/main.rs` lines
105-128), in registration order. -/
def func_registry : List (String × Reg) :=
  [("toUppercase", toUppercaseReg),
   ("addInt", addIntReg),
   ("parseInt", parseIntReg),
   ("sleep", sleepReg),
   ("emit", emitReg)]

/-- Modelled from the spec: the outcome of a call —
`success(encoded value) | failure(error description)` (§3 CallResult). -/
inductive Outcome where
  | success : Value → Outcome
  | failed : String → Outcome
deriving DecidableEq

/-- Modelled from the spec: what one run of the Call Dispatcher on one
call observably does (§4.3): whether the registered handler's native
function was invoked, the outcome, and the events emitted while the
handler ran. -/
structure DispatchTrace where
  handlerInvoked : Bool
  outcome : Outcome
  emissions : List Emission
deriving DecidableEq

/-- Modelled from the spec: name lookup in the built registry; a later
registration under the same name replaces an earlier one (§4.2
last-registration-wins). -/
def lookupFn (reg : List (String × Reg)) (name : String) : Option Reg :=
  match reg with
  | [] => none
  | (n, h) :: rest =>
    match lookupFn rest name with
    | some h2 => some h2
    | none => if n = name then some h else none

/-- Modelled from the spec: the Call Dispatcher's per-call state machine
`Received → Decoding → Invoking → (Completed | Failed)` (§4.3): an
unknown name fails with "no such function" without invoking anything; a
decode failure fails with the decode error without invoking the handler;
otherwise the handler runs and its native result or error becomes the
outcome. -/
def invokeCall (reg : List (String × Reg)) (frame : Nat) (name : String)
    (args : List Value) : DispatchTrace :=
  match lookupFn reg name with
  | none => ⟨false, .failed "no such function", []⟩
  | some h =>
    match decodeArgs h.sig args with
    | .error e => ⟨false, .failed ("decode error: " ++ e), []⟩
    | .ok ns =>
      let r := h.native frame ns
      ⟨true,
       match r.1 with
       | .ok v => .success v
       | .error e => .failed e,
       r.2⟩

/-- Modelled from the spec: a CallRequest — name, encoded arguments, a
correlation token, and the originating script execution frame (§3). -/
structure CallRequest where
  name : String
  args : List Value
  call_id : Nat
  origin_context : Nat
deriving DecidableEq

/-- Modelled from the spec: a CallResult — the originating call_id and
the outcome (§3). -/
structure CallResult where
  call_id : Nat
  outcome : Outcome
deriving DecidableEq

/-- Modelled from the spec: the one delivery attempt made for a
CallRequest (§3, §4.3): either the result is written into the still-live
origin context, or the delivery is dropped (and logged) because the
context is gone. -/
inductive DeliveryAttempt where
  | written : Nat → CallResult → DeliveryAttempt
  | dropped : Nat → DeliveryAttempt
deriving DecidableEq

/-- The call identifier an attempt is about. -/
def attemptCallId : DeliveryAttempt → Nat
  | .written _ r => r.call_id
  | .dropped cid => cid

/-- Modelled from the spec: dispatching one CallRequest end to end
(§4.3): run the dispatcher, tag the result with the request's own
call_id, and attempt delivery into the origin context exactly once —
a write if the context is still alive, a drop otherwise. -/
def dispatchRequest (reg : List (String × Reg)) (alive : Nat → Bool)
    (req : CallRequest) : DeliveryAttempt :=
  let tr := invokeCall reg req.origin_context req.name req.args
  if alive req.origin_context then
    .written req.origin_context ⟨req.call_id, tr.outcome⟩
  else
    .dropped req.call_id

/-- Modelled from the spec: each accepted CallRequest is consumed
exactly once by the Dispatcher (§3), so a batch of requests yields one
delivery attempt per request, in order. -/
def dispatchBatch (reg : List (String × Reg)) (alive : Nat → Bool)
    (reqs : List CallRequest) : List DeliveryAttempt :=
  reqs.map (dispatchRequest reg alive)

/-- The events emitted while dispatching a request; they depend only on
the frame, name and arguments, never on the call identifier. -/
def requestEmissions (reg : List (String × Reg)) (req : CallRequest) :
    List Emission :=
  (invokeCall reg req.origin_context req.name req.args).emissions

/-! ## The engine pump bridge (`run`, `src/main.rs` lines 272-295)

On Linux the host spawns a background producer that sends one unit per
timer tick into a `flume::unbounded()` channel, and a consumer loop
`while rx.recv_async().await.is_ok() { wef::do_message_work(); }`.
The state machine below is the interleaving of the two tasks: ticks are
numbered in production order, `flume` unbounded sends always succeed
while a sender is alive, `recv` yields the oldest queued tick and only
fails once the channel is closed (all senders gone) and drained. -/

/-- State of the pump bridge: how many ticks were produced, the queued
tick numbers (FIFO), the consumed tick numbers in consumption order, the
number of `wef::do_message_work` calls, whether the sender side is still
alive, and whether the consumer loop has exited. -/
structure PumpState where
  produced : Nat
  queue : List Nat
  consumed : List Nat
  workCalls : Nat
  senderAlive : Bool
  consumerHalted : Bool
deriving DecidableEq

/-- Initial pump state: nothing produced or consumed, channel open. -/
def pumpInit : PumpState := ⟨0, [], [], 0, true, false⟩

/-- One interleaved step of the producer task, the consumer loop, or
shutdown:
* `tick` — the producer sends the next tick; the `flume::unbounded`
  channel accepts it unconditionally (no capacity guard);
* `close` — the sender side goes away (process shutdown);
* `recvWork` — `rx.recv_async()` returns `Ok` on the oldest queued tick
  and the consumer calls `wef::do_message_work()` once;
* `recvClosed` — `rx.recv_async()` returns `Err` because the channel is
  closed and drained, and the consumer loop exits. -/
inductive PumpStep : PumpState → PumpState → Prop where
  | tick (s : PumpState) (h : s.senderAlive = true) :
      PumpStep s { s with produced := s.produced + 1,
                          queue := s.queue ++ [s.produced] }
  | close (s : PumpState) :
      PumpStep s { s with senderAlive := false }
  | recvWork (s : PumpState) (t : Nat) (rest : List Nat)
      (hq : s.queue = t :: rest) (hr : s.consumerHalted = false) :
      PumpStep s { s with queue := rest,
                          consumed := s.consumed ++ [t],
                          workCalls := s.workCalls + 1 }
  | recvClosed (s : PumpState) (hq : s.queue = [])
      (hs : s.senderAlive = false) (hr : s.consumerHalted = false) :
      PumpStep s { s with consumerHalted := true }

/-- The pump states reachable from the initial state. -/
def PumpReachable (s : PumpState) : Prop :=
  Relation.ReflTransGen PumpStep pumpInit s

/-- The state after the producer has sent `n` ticks and the consumer has
taken none. -/
def ticksOnly (n : Nat) : PumpState := ⟨n, List.range n, [], 0, true, false⟩

/-- From `run`: `Timer::interval(Duration::from_millis(1000 / 60))` —
the tick interval in milliseconds, with Rust integer (u64) division. -/
def tickIntervalMs : Nat := 1000 / 60

/-- How many full tick intervals fit in a window of `w` milliseconds. -/
def ticksInWindow (w : Nat) : Nat := w / tickIntervalMs

/-- The two pump tasks spawned by `run`. -/
inductive PumpTask where
  | producer : PumpTask
  | consumer : PumpTask
deriving DecidableEq

/-- From `run` (`src/main.rs` line 278): the pump tasks are spawned
inside `if cfg!(target_os = "linux") { ... }` and nowhere else. -/
def pumpTasksSpawned (target_os : String) : List PumpTask :=
  if target_os = "linux" then [.consumer, .producer] else []

/-- `wef::do_message_work` calls performed by the program on a platform,
given the pump state its tasks reached: the call site is inside the
consumer loop, which exists only when the pump tasks were spawned. -/
def doMessageWorkCalls (target_os : String) (s : PumpState) : Nat :=
  if target_os = "linux" then s.workCalls else 0

/-! ## The tick producer loop in isolation (`src/main.rs` lines 282-288)

`while timer.next().await.is_some() { _ = tx.send_async(()).await; }` -/

/-- Result of one `flume` send: `Ok`, or disconnected because the
receiving end was dropped. -/
inductive SendOutcome where
  | sendOk : SendOutcome
  | disconnected : SendOutcome
deriving DecidableEq

/-- Observable state of the producer task: timer ticks seen, send
attempts made, whether the loop has exited, and errors reported. -/
structure ProducerState where
  ticksSeen : Nat
  sendsAttempted : Nat
  halted : Bool
  errorsReported : Nat
deriving DecidableEq

/-- `Timer::interval` is an endless stream: `timer.next()` always
yields a tick. -/
def timerNext (_ : Nat) : Option Unit := some ()

/-- One iteration of the producer loop: await the timer, make exactly
one send attempt, and discard its result (`_ = tx.send_async(()).await`)
— the loop body neither branches on the result nor reports it. -/
def producerStep (_ : SendOutcome) (s : ProducerState) : ProducerState :=
  match timerNext s.ticksSeen with
  | none => { s with halted := true }
  | some _ => { s with ticksSeen := s.ticksSeen + 1,
                       sendsAttempted := s.sendsAttempted + 1 }

/-- The producer after `n` loop iterations, where `results i` is the
outcome the channel gave to the send of tick `i`. -/
def producerRun (results : Nat → SendOutcome) : Nat → ProducerState
  | 0 => ⟨0, 0, false, 0⟩
  | n + 1 => producerStep (results n) (producerRun results n)

/-! ## Helper lemmas -/

theorem wrapI32_eq_of_range (n : Int) (h1 : -(2 ^ 31) ≤ n) (h2 : n < 2 ^ 31) :
    wrapI32 n = n := by
  unfold wrapI32
  have h3 : (n + 2 ^ 31) % 2 ^ 32 = n + 2 ^ 31 :=
    Int.emod_eq_of_lt (by omega) (by omega)
  omega

theorem decode1_error_of_not_matches :
    ∀ (t : Ty) (v : Value), valueMatches t v = false →
      ∃ e, decode1 t v = .error e
  | .tInt, .vInt n, h => by
    simp only [valueMatches, Bool.and_eq_false_iff,
      decide_eq_false_iff_not] at h
    exact ⟨_, if_neg (by omega)⟩
  | .tInt, .vStr _, _ => ⟨_, rfl⟩
  | .tInt, .vUnit, _ => ⟨_, rfl⟩
  | .tU64, .vInt n, h => by
    simp only [valueMatches, Bool.and_eq_false_iff,
      decide_eq_false_iff_not] at h
    exact ⟨_, if_neg (by omega)⟩
  | .tU64, .vStr _, _ => ⟨_, rfl⟩
  | .tU64, .vUnit, _ => ⟨_, rfl⟩
  | .tStr, .vInt _, _ => ⟨_, rfl⟩
  | .tStr, .vStr _, h => by simp [valueMatches] at h
  | .tStr, .vUnit, _ => ⟨_, rfl⟩

theorem decode1_ok_of_matches :
    ∀ (t : Ty) (v : Value), valueMatches t v = true →
      ∃ x, decode1 t v = .ok x
  | .tInt, .vInt n, h => by
    simp only [valueMatches, Bool.and_eq_true, decide_eq_true_eq] at h
    exact ⟨_, if_pos h⟩
  | .tInt, .vStr _, h => by simp [valueMatches] at h
  | .tInt, .vUnit, h => by simp [valueMatches] at h
  | .tU64, .vInt n, h => by
    simp only [valueMatches, Bool.and_eq_true, decide_eq_true_eq] at h
    exact ⟨_, if_pos h⟩
  | .tU64, .vStr _, h => by simp [valueMatches] at h
  | .tU64, .vUnit, h => by simp [valueMatches] at h
  | .tStr, .vInt _, h => by simp [valueMatches] at h
  | .tStr, .vStr _, _ => ⟨_, rfl⟩
  | .tStr, .vUnit, h => by simp [valueMatches] at h

theorem decodeArgs_error_of_mismatch :
    ∀ (sig : List Ty) (args : List Value), argsMatchB sig args = false →
      ∃ e, decodeArgs sig args = .error e := by
  intro sig
  induction sig with
  | nil =>
    intro args h
    cases args with
    | nil => simp [argsMatchB] at h
    | cons v vs => exact ⟨"wrong number of arguments", rfl⟩
  | cons t ts ih =>
    intro args h
    cases args with
    | nil => exact ⟨"wrong number of arguments", rfl⟩
    | cons v vs =>
      rw [show argsMatchB (t :: ts) (v :: vs) =
            (valueMatches t v && argsMatchB ts vs) from rfl] at h
      cases hm : valueMatches t v with
      | false =>
        obtain ⟨e2, he2⟩ := decode1_error_of_not_matches t v hm
        exact ⟨e2, by simp [decodeArgs, he2]⟩
      | true =>
        rw [hm, Bool.true_and] at h
        obtain ⟨e, he⟩ := ih vs h
        obtain ⟨x, hx⟩ := decode1_ok_of_matches t v hm
        exact ⟨e, by simp [decodeArgs, hx, he]⟩

theorem ticksOnly_reachable (n : Nat) : PumpReachable (ticksOnly n) := by
  induction n with
  | zero => exact Relation.ReflTransGen.refl
  | succ k ih =>
    refine Relation.ReflTransGen.tail ih ?_
    have h : ticksOnly (k + 1) =
        { ticksOnly k with produced := (ticksOnly k).produced + 1,
                           queue := (ticksOnly k).queue ++ [(ticksOnly k).produced] } := by
      simp [ticksOnly, List.range_succ]
    rw [h]
    exact PumpStep.tick (ticksOnly k) rfl

/-- The pump invariant: the consumed ticks followed by the queued ticks
are exactly the ticks produced so far, in production order; there is one
`do_message_work` call per consumed tick; and a halted consumer means
the channel was closed and drained. -/
def pumpInv (s : PumpState) : Prop :=
  s.consumed ++ s.queue = List.range s.produced ∧
  s.workCalls = s.consumed.length ∧
  (s.consumerHalted = true → s.senderAlive = false ∧ s.queue = [])

theorem pumpInv_init : pumpInv pumpInit := by
  refine ⟨rfl, rfl, ?_⟩
  intro h
  simp [pumpInit] at h

theorem pumpInv_step {s s2 : PumpState} (hs : pumpInv s) (h : PumpStep s s2) :
    pumpInv s2 := by
  obtain ⟨h1, h2, h3⟩ := hs
  cases h with
  | tick ha =>
    refine ⟨?_, h2, ?_⟩
    · show s.consumed ++ (s.queue ++ [s.produced]) = List.range (s.produced + 1)
      rw [List.range_succ, ← h1, List.append_assoc]
    · intro hh
      have hdead := (h3 hh).1
      rw [ha] at hdead
      exact Bool.noConfusion hdead
  | close =>
    exact ⟨h1, h2, fun hh => ⟨rfl, (h3 hh).2⟩⟩
  | recvWork t rest hq hr =>
    refine ⟨?_, ?_, ?_⟩
    · show s.consumed ++ [t] ++ rest = List.range s.produced
      rw [← h1, hq, List.append_assoc]
      rfl
    · show s.workCalls + 1 = (s.consumed ++ [t]).length
      simp [h2]
    · intro hh
      have hh2 : s.consumerHalted = true := hh
      rw [hr] at hh2
      exact Bool.noConfusion hh2
  | recvClosed hq hdead hr =>
    exact ⟨h1, h2, fun _ => ⟨hdead, hq⟩⟩

theorem pumpInv_reachable {s : PumpState} (h : PumpReachable s) : pumpInv s := by
  induction h with
  | refl => exact pumpInv_init
  | tail _ hstep ih => exact pumpInv_step ih hstep

theorem parseDigits_range :
    ∀ (l : List Char) (neg : Bool) (acc n : Int),
      -(2 ^ 31) ≤ acc → acc < 2 ^ 31 →
      parseDigits neg l acc = .ok n → -(2 ^ 31) ≤ n ∧ n < 2 ^ 31 := by
  intro l
  induction l with
  | nil =>
    intro neg acc n h1 h2 h
    simp only [parseDigits] at h
    cases h
    exact ⟨h1, h2⟩
  | cons c rest ih =>
    intro neg acc n h1 h2 h
    simp only [parseDigits] at h
    split at h
    · split at h
      · exact absurd h (by simp)
      · split at h
        · exact absurd h (by simp)
        · exact ih neg _ n (by omega) (by omega) h
    · exact absurd h (by simp)

theorem parseI32_range (s : String) (n : Int) (h : parseI32 s = .ok n) :
    -(2 ^ 31) ≤ n ∧ n < 2 ^ 31 := by
  unfold parseI32 at h
  split at h
  · exact absurd h (by simp)
  · split at h
    · split at h
      · exact absurd h (by simp)
      · exact parseDigits_range _ _ _ _ (by norm_num) (by norm_num) h
    · split at h
      · split at h
        · exact absurd h (by simp)
        · exact parseDigits_range _ _ _ _ (by norm_num) (by norm_num) h
      · exact parseDigits_range _ _ _ _ (by norm_num) (by norm_num) h

theorem invokeCall_ok {reg : List (String × Reg)} {name : String} {h : Reg}
    {args : List Value} {ns : List Native} (frame : Nat)
    (hlook : lookupFn reg name = some h)
    (hdec : decodeArgs h.sig args = .ok ns) :
    invokeCall reg frame name args =
      ⟨true,
       match (h.native frame ns).1 with
       | .ok v => .success v
       | .error e => .failed e,
       (h.native frame ns).2⟩ := by
  simp [invokeCall, hlook, hdec]

theorem producerRun_closed_form (results : Nat → SendOutcome) (n : Nat) :
    producerRun results n = ⟨n, n, false, 0⟩ := by
  induction n with
  | zero => rfl
  | succ k ih => rw [producerRun, ih]; rfl

/-! ## Claims -/

/-- C1: for every CallRequest accepted by the dispatcher, exactly one
CallResult delivery attempt is made — a batch of requests yields exactly
one attempt per request; the attempt carries the request's own call_id
(never a swapped one); the attempt is a write into the origin context
tagged with the dispatcher's outcome when the context is alive, and a
drop when the context is gone, so origin_context is written at most once
per CallRequest. -/
theorem C1_exactly_one_delivery (reg : List (String × Reg))
    (alive : Nat → Bool) (reqs : List CallRequest) (req : CallRequest) :
    (dispatchBatch reg alive reqs).length = reqs.length ∧
    attemptCallId (dispatchRequest reg alive req) = req.call_id ∧
    (alive req.origin_context = true →
      dispatchRequest reg alive req =
        .written req.origin_context
          ⟨req.call_id,
           (invokeCall reg req.origin_context req.name req.args).outcome⟩) ∧
    (alive req.origin_context = false →
      dispatchRequest reg alive req = .dropped req.call_id) := by
  refine ⟨by simp [dispatchBatch], ?_, ?_, ?_⟩
  · cases h : alive req.origin_context <;>
      simp [dispatchRequest, attemptCallId, h]
  · intro h; simp [dispatchRequest, h]
  · intro h; simp [dispatchRequest, h]

/-- Witness for C1 at a concrete request, with a live and with a dead
origin context. -/
theorem C1_witness :
    dispatchRequest func_registry (fun _ => true)
        ⟨"addInt", [.vInt 2, .vInt 3], 7, 1⟩ =
      .written 1 ⟨7, .success (.vInt 5)⟩ ∧
    dispatchRequest func_registry (fun _ => false)
        ⟨"addInt", [.vInt 2, .vInt 3], 7, 1⟩ =
      .dropped 7 := by
  constructor
  · have h := (C1_exactly_one_delivery func_registry (fun _ => true) []
      ⟨"addInt", [.vInt 2, .vInt 3], 7, 1⟩).2.2.1 rfl
    rw [h]
    rfl
  · exact (C1_exactly_one_delivery func_registry (fun _ => false) []
      ⟨"addInt", [.vInt 2, .vInt 3], 7, 1⟩).2.2.2 rfl

/-- C2 counterexample: the claim "the relay queue has bounded capacity"
is false for the code — `flume::unbounded()` accepts every send, so no
fixed bound covers all reachable pump states. -/
theorem C2_counterexample :
    ¬ ∃ bound : Nat, ∀ s : PumpState,
        PumpReachable s → s.queue.length ≤ bound := by
  rintro ⟨b, hb⟩
  have h := hb (ticksOnly (b + 1)) (ticksOnly_reachable (b + 1))
  simp [ticksOnly] at h

/-- C2 (amended): the relay is unbounded — ticks queue rather than
drop, and for every backlog size some reachable pump state holds exactly
that many queued-but-unconsumed ticks. -/
theorem C2_unbounded_backlog (n : Nat) :
    ∃ s : PumpState, PumpReachable s ∧ s.queue.length = n :=
  ⟨ticksOnly n, ticksOnly_reachable n, by simp [ticksOnly]⟩

/-- C3 counterexample: the producer interval is
`Duration::from_millis(1000 / 60)` under integer division, i.e. 16 ms —
not 1/60 of a second (16 ms × 60 = 960 ms ≠ 1000 ms) — and a 1-second
window holds 62 full intervals, not 60. -/
theorem C3_counterexample :
    tickIntervalMs = 16 ∧ 60 * tickIntervalMs ≠ 1000 ∧
    ticksInWindow 1000 ≠ 60 := by
  refine ⟨rfl, by decide, by decide⟩

/-- C3 (amended): the tick interval is 16 ms (the integer quotient of
1000 by 60), so sixty intervals span 960 ms and a 1-second window holds
62 full intervals (≈ 62.5 Hz, an approximation of the intended
60 Hz). -/
theorem C3_tick_interval :
    tickIntervalMs = 16 ∧ 60 * tickIntervalMs = 960 ∧
    ticksInWindow 1000 = 62 := by
  refine ⟨rfl, rfl, rfl⟩

/-- C4: for every registered handler and every argument list with a
wrong argument count or a wrong argument type, the handler is never
invoked, nothing is emitted, and the call fails with a decode-error
description. -/
theorem C4_decode_failure_skips_handler (reg : List (String × Reg))
    (frame : Nat) (name : String) (h : Reg) (args : List Value)
    (hreg : lookupFn reg name = some h)
    (hbad : argsMatchB h.sig args = false) :
    (invokeCall reg frame name args).handlerInvoked = false ∧
    (invokeCall reg frame name args).emissions = [] ∧
    ∃ e, decodeArgs h.sig args = .error e ∧
      (invokeCall reg frame name args).outcome =
        .failed ("decode error: " ++ e) := by
  obtain ⟨e, he⟩ := decodeArgs_error_of_mismatch h.sig args hbad
  refine ⟨?_, ?_, e, he, ?_⟩ <;> simp [invokeCall, hreg, he]

/-- Witness for C4: calling `addInt` with a string first argument (the
spec's own example) does not invoke the handler and fails with a decode
error. -/
theorem C4_witness :
    (invokeCall func_registry 0 "addInt"
        [.vStr "x", .vInt 3]).handlerInvoked = false ∧
    ∃ e, (invokeCall func_registry 0 "addInt" [.vStr "x", .vInt 3]).outcome =
      .failed ("decode error: " ++ e) := by
  have h := C4_decode_failure_skips_handler func_registry 0 "addInt"
    addIntReg [.vStr "x", .vInt 3] rfl rfl
  exact ⟨h.1, h.2.2.elim fun e he => ⟨e, he.2⟩⟩

/-- C5: in every reachable pump state the consumer has made exactly one
`wef::do_message_work` call per tick received; the consumed ticks are
exactly the first ticks produced, in enqueue order, with no duplicate
(consumed followed by still-queued equals the production sequence); and
the consumer loop has exited only if the relay was closed and
drained. -/
theorem C5_one_work_call_per_tick (s : PumpState) (hs : PumpReachable s) :
    s.workCalls = s.consumed.length ∧
    s.consumed ++ s.queue = List.range s.produced ∧
    s.consumed = (List.range s.produced).take s.consumed.length ∧
    s.consumed.Nodup ∧
    (s.consumerHalted = true → s.senderAlive = false ∧ s.queue = []) := by
  obtain ⟨h1, h2, h3⟩ := pumpInv_reachable hs
  refine ⟨h2, h1, ?_, ?_, h3⟩
  · conv_lhs => rw [← List.take_left s.consumed s.queue, h1]
  · have hsub : s.consumed.Sublist (List.range s.produced) := by
      rw [← h1]
      exact List.sublist_append_left _ _
    exact hsub.nodup (List.nodup_range _)

/-- Witness for C5 at the initial pump state. -/
theorem C5_witness :
    pumpInit.workCalls = pumpInit.consumed.length ∧
    pumpInit.consumed ++ pumpInit.queue = List.range pumpInit.produced := by
  have h := C5_one_work_call_per_tick pumpInit Relation.ReflTransGen.refl
  exact ⟨h.1, h.2.1⟩

/-- C6: the pump tasks are spawned, and `wef::do_message_work` can be
called, if and only if the target platform is Linux; on every other
platform no pump task exists and no pump work is performed. -/
theorem C6_pump_linux_only (target_os : String) (s : PumpState) :
    (pumpTasksSpawned target_os ≠ [] ↔ target_os = "linux") ∧
    (target_os ≠ "linux" →
      pumpTasksSpawned target_os = [] ∧ doMessageWorkCalls target_os s = 0) ∧
    (target_os = "linux" →
      pumpTasksSpawned target_os = [.consumer, .producer] ∧
      doMessageWorkCalls target_os s = s.workCalls) := by
  by_cases h : target_os = "linux" <;>
    simp [pumpTasksSpawned, doMessageWorkCalls, h]

/-- Witness for C6 on a non-Linux and on the Linux platform. -/
theorem C6_witness :
    pumpTasksSpawned "macos" = [] ∧
    doMessageWorkCalls "macos" pumpInit = 0 ∧
    pumpTasksSpawned "linux" = [.consumer, .producer] := by
  refine ⟨?_, ?_, ?_⟩
  · exact ((C6_pump_linux_only "macos" pumpInit).2.1 (by decide)).1
  · exact ((C6_pump_linux_only "macos" pumpInit).2.1 (by decide)).2
  · exact ((C6_pump_linux_only "linux" pumpInit).2.2 rfl).1

/-- C7 counterexample: `addInt` is an i32 handler, so "returns their
integer sum" fails at 2147483647 + 1 — the call succeeds with the
wrapped value −2147483648, not the integer sum 2147483648. -/
theorem C7_counterexample :
    (invokeCall func_registry 0 "addInt"
        [.vInt 2147483647, .vInt 1]).outcome =
      .success (.vInt (-2147483648)) ∧
    Outcome.success (.vInt (-2147483648)) ≠
      .success (.vInt (2147483647 + 1)) := by
  exact ⟨by decide, by decide⟩

/-- C7 (amended): for i32 arguments, `addInt` succeeds with the sum
wrapped to two's-complement i32 — equal to the integer sum a + b
whenever that sum fits in i32; in particular `addInt [2, 3]` yields
success 5, and the unregistered name `subInt` yields
failure "no such function". -/
theorem C7_addInt (frame : Nat) (a b : Int)
    (ha : -(2 ^ 31) ≤ a ∧ a < 2 ^ 31) (hb : -(2 ^ 31) ≤ b ∧ b < 2 ^ 31) :
    invokeCall func_registry frame "addInt" [.vInt a, .vInt b] =
      ⟨true, .success (.vInt (wrapI32 (a + b))), []⟩ ∧
    (-(2 ^ 31) ≤ a + b ∧ a + b < 2 ^ 31 → wrapI32 (a + b) = a + b) ∧
    invokeCall func_registry frame "addInt" [.vInt 2, .vInt 3] =
      ⟨true, .success (.vInt 5), []⟩ ∧
    invokeCall func_registry frame "subInt" [.vInt 2, .vInt 3] =
      ⟨false, .failed "no such function", []⟩ := by
  have hlook : lookupFn func_registry "addInt" = some addIntReg := rfl
  have hda : decode1 .tInt (.vInt a) = .ok (.nInt a) := if_pos ha
  have hdb : decode1 .tInt (.vInt b) = .ok (.nInt b) := if_pos hb
  have hdec : decodeArgs addIntReg.sig [.vInt a, .vInt b] =
      .ok [.nInt a, .nInt b] := by
    simp [decodeArgs, addIntReg, hda, hdb]
  refine ⟨?_, fun h => wrapI32_eq_of_range _ h.1 h.2, rfl, rfl⟩
  rw [invokeCall_ok frame hlook hdec]
  rfl

/-- Witness for C7 at arguments 2 and 3. -/
theorem C7_witness :
    invokeCall func_registry 0 "addInt" [.vInt 2, .vInt 3] =
      ⟨true, .success (.vInt 5), []⟩ ∧
    invokeCall func_registry 0 "subInt" [.vInt 2, .vInt 3] =
      ⟨false, .failed "no such function", []⟩ := by
  have h := C7_addInt 0 2 3 (by decide) (by decide)
  exact ⟨h.2.2.1, h.2.2.2⟩

/-- C8: for every input string, if it parses as a 32-bit signed integer
then calling `parseInt` succeeds with exactly that integer (which lies
in the i32 range), and if it does not parse then the handler's error is
returned as a Failed result carrying the handler's error text. -/
theorem C8_parseInt (s : String) (frame : Nat) :
    (∀ n : Int, parseI32 s = .ok n →
      invokeCall func_registry frame "parseInt" [.vStr s] =
        ⟨true, .success (.vInt n), []⟩ ∧ -(2 ^ 31) ≤ n ∧ n < 2 ^ 31) ∧
    (∀ e : String, parseI32 s = .error e →
      invokeCall func_registry frame "parseInt" [.vStr s] =
        ⟨true, .failed e, []⟩) := by
  have hlook : lookupFn func_registry "parseInt" = some parseIntReg := rfl
  have hdec : decodeArgs parseIntReg.sig [.vStr s] = .ok [.nStr s] := rfl
  constructor
  · intro n hn
    refine ⟨?_, parseI32_range s n hn⟩
    rw [invokeCall_ok frame hlook hdec]
    simp [parseIntReg, hn]
  · intro e he
    rw [invokeCall_ok frame hlook hdec]
    simp [parseIntReg, he]

/-- Witness for C8 on a parsable and an unparsable string. -/
theorem C8_witness :
    invokeCall func_registry 0 "parseInt" [.vStr "42"] =
      ⟨true, .success (.vInt 42), []⟩ ∧
    invokeCall func_registry 0 "parseInt" [.vStr "x"] =
      ⟨true, .failed "invalid digit found in string", []⟩ :=
  ⟨((C8_parseInt "42" 0).1 42 rfl).1,
   (C8_parseInt "x" 0).2 "invalid digit found in string" rfl⟩

/-- C9: every invocation of the `emit` handler emits exactly one event
into the calling frame, with payload event "custom" and data "ok"; the
emission is identical for every call identifier (fire-and-forget, not
correlated to any CallRequest), and the call itself resolves to unit
success. -/
theorem C9_emit_single_event (frame cid cid2 : Nat) :
    requestEmissions func_registry ⟨"emit", [], cid, frame⟩ =
      [⟨frame, ⟨"custom", "ok"⟩⟩] ∧
    (requestEmissions func_registry ⟨"emit", [], cid, frame⟩).length = 1 ∧
    requestEmissions func_registry ⟨"emit", [], cid, frame⟩ =
      requestEmissions func_registry ⟨"emit", [], cid2, frame⟩ ∧
    (invokeCall func_registry frame "emit" []).outcome = .success .vUnit :=
  ⟨rfl, rfl, rfl, rfl⟩

/-- C10: the producer loop makes exactly one send attempt per timer
tick, discards every send result, never halts, never retries and never
reports an error — its state after any number of ticks is independent of
whether the relay accepted or refused the sends. -/
theorem C10_producer_ignores_send_result
    (results alt : Nat → SendOutcome) (n : Nat) :
    producerRun results n = ⟨n, n, false, 0⟩ ∧
    (producerRun results n).halted = false ∧
    (producerRun results n).sendsAttempted = (producerRun results n).ticksSeen ∧
    (producerRun results n).errorsReported = 0 ∧
    producerRun results n = producerRun alt n := by
  rw [producerRun_closed_form results n, producerRun_closed_form alt n]
  exact ⟨rfl, rfl, rfl, rfl, rfl⟩

end Wef
